import Mathlib

/-!
# Verification of the request/cache-addressing engine

A shallow embedding of the repository's client-side request engine:
the cache key factory (`src/keys/createKeyFactory.ts`), the fetch
pipeline with its path template engine and query serializer
(`src/fetch/createFetcher.ts`), the configuration validator
(`validateEndpoint`), and the automatic invalidation policy installed
by the generated hooks (`createHooks` / `createUseMutationHook`).

JavaScript runtime values are modelled by `JsVal`; plain objects are
modelled as association lists in insertion order with unique keys
(JavaScript objects with non-integer-like keys enumerate in insertion
order).  Machine floats never matter for the verified properties, so
numbers are modelled as integers.
-/

set_option maxHeartbeats 1000000

namespace TanstackApi

/-- A JavaScript runtime value: `undefined`, `null`, strings, numbers
(modelled as integers), booleans, arrays and plain objects
(association lists in insertion order). -/
inductive JsVal where
  | undef
  | null
  | str (s : String)
  | num (n : Int)
  | bool (b : Bool)
  | arr (elems : List JsVal)
  | obj (fields : List (String × JsVal))

/-- `value === undefined` test used throughout the source. -/
def JsVal.isUndef : JsVal → Bool
  | .undef => true
  | _ => false

/-- `value === undefined || value === null` test (the skip test of the
query serializer). -/
def JsVal.isNullish : JsVal → Bool
  | .undef => true
  | .null => true
  | _ => false

mutual

/-- JavaScript `String(value)` on the values of `JsVal`: arrays join
their elements with commas (`Array.prototype.toString`), with `null`
and `undefined` elements becoming empty strings; plain objects print
as `[object Object]`. -/
def jsString : JsVal → String
  | .undef => "undefined"
  | .null => "null"
  | .str s => s
  | .num n => toString n
  | .bool b => if b then "true" else "false"
  | .obj _ => "[object Object]"
  | .arr xs => String.intercalate "," (jsStringElems xs)

/-- The per-element strings that `Array.prototype.join` builds. -/
def jsStringElems : List JsVal → List String
  | [] => []
  | v :: vs => (if v.isNullish then "" else jsString v) :: jsStringElems vs

end

/-- JSON string escaping applied by `JSON.stringify` to one character. -/
def jsonEscapeChar (c : Char) : String :=
  if c = '"' then "\\\""
  else if c = '\\' then "\\\\"
  else if c = '\n' then "\\n"
  else if c = '\r' then "\\r"
  else if c = '\t' then "\\t"
  else if c.toNat < 32 then
    "\\u" ++ (Nat.toDigits 16 c.toNat).asString.leftpad 4 '0'
  else String.singleton c

/-- `JSON.stringify` rendering of a string literal. -/
def jsonQuote (s : String) : String :=
  "\"" ++ String.join (s.data.map jsonEscapeChar) ++ "\""

mutual

/-- JavaScript `JSON.stringify(value)`.  `undefined` array elements
render as `null`; `undefined`-valued object fields are dropped.  A
top-level `undefined` has no JSON rendering (JSON.stringify returns
the undefined value there); the embedding returns the marker string
`"undefined"`, and no verified code path reaches that case. -/
def jsonStringify : JsVal → String
  | .undef => "undefined"
  | .null => "null"
  | .str s => jsonQuote s
  | .num n => toString n
  | .bool b => if b then "true" else "false"
  | .arr xs => "[" ++ String.intercalate "," (jsonArrElems xs) ++ "]"
  | .obj fs => "\x7b" ++ String.intercalate "," (jsonObjFields fs) ++ "\x7d"

/-- JSON renderings of the elements of an array. -/
def jsonArrElems : List JsVal → List String
  | [] => []
  | v :: vs => (if v.isUndef then "null" else jsonStringify v) :: jsonArrElems vs

/-- JSON renderings of the fields of an object, dropping
`undefined`-valued fields. -/
def jsonObjFields : List (String × JsVal) → List String
  | [] => []
  | (k, v) :: fs =>
      if v.isUndef then jsonObjFields fs
      else (jsonQuote k ++ ":" ++ jsonStringify v) :: jsonObjFields fs

end

/-! ## Cache Key Factory — `src/keys/createKeyFactory.ts` -/

/-- One element of a hierarchical cache key: the `group`/`endpoint`
strings, or a parameter/query object. -/
inductive KeyPart where
  | str (s : String)
  | obj (fields : List (String × JsVal))

/-- A cache key, as produced by `createKey`: an ordered sequence of
key parts. -/
abbrev CacheKey := List KeyPart

/-- JavaScript property access `o[k]` on an association-list object:
the first binding of the key, `undefined` when absent. -/
def lookupKey : List (String × JsVal) → String → Option JsVal
  | [], _ => none
  | (k, v) :: rest, key => if k = key then some v else lookupKey rest key

/-- `Object.keys(o).sort()`: the keys of the object sorted in
lexicographic (code unit) order. -/
def sortKeys (l : List String) : List String :=
  List.insertionSort (· ≤ ·) l

/-- The sorted object built by the two loops of `createKey`: iterate
the sorted key list, and copy each binding whose value is not
`undefined`. -/
def sortedObj (o : List (String × JsVal)) : List (String × JsVal) :=
  (sortKeys (o.map Prod.fst)).filterMap fun k =>
    match lookupKey o k with
    | some v => if v.isUndef then none else some (k, v)
    | none => none

/-- `createKey(group, endpoint, params?, query?)` from
`createKeyFactory.ts`: starts from `[group, endpoint]`; appends the
sorted params object when `params` is supplied and
`Object.keys(params).length > 0`; then appends the sorted query
object under the same length test (the source additionally tests
`typeof query === "object"`, which the association-list model makes
always true). -/
def createKey (group endpoint : String)
    (params : Option (List (String × JsVal)))
    (query : Option (List (String × JsVal))) : CacheKey :=
  let key := [KeyPart.str group, KeyPart.str endpoint]
  let key := match params with
    | some p => if p.length > 0 then key ++ [KeyPart.obj (sortedObj p)] else key
    | none => key
  match query with
  | some q => if q.length > 0 then key ++ [KeyPart.obj (sortedObj q)] else key
  | none => key

/-! ## Query Serializer — `buildQueryString` in `createFetcher.ts` -/

/-- Characters that the `application/x-www-form-urlencoded` serializer
(used by `URLSearchParams.toString`) leaves unescaped. -/
def formSafeChar (c : Char) : Bool :=
  c.isAlphanum || c = '*' || c = '-' || c = '.' || c = '_'

/-- Uppercase hexadecimal rendering of one byte, two digits. -/
def hexByte (b : UInt8) : String :=
  let digits := "0123456789ABCDEF".data
  String.mk [digits.getD (b.toNat / 16) '0', digits.getD (b.toNat % 16) '0']

/-- `application/x-www-form-urlencoded` escape of one character:
safe characters pass through, space becomes `+`, everything else is
percent-escaped over its UTF-8 bytes. -/
def formEncodeChar (c : Char) : String :=
  if formSafeChar c then String.singleton c
  else if c = ' ' then "+"
  else String.join (((String.singleton c).toUTF8.toList).map fun b => "%" ++ hexByte b)

/-- Form-urlencoding of a character list. -/
def formEncodeList : List Char → String
  | [] => ""
  | c :: cs => formEncodeChar c ++ formEncodeList cs

/-- Form-urlencoding of a string (what `URLSearchParams` applies to
each key and value). -/
def formEncode (s : String) : String :=
  formEncodeList s.data

/-- The `key=value` pairs appended to the `URLSearchParams` for one
entry of the query object, in the order of `buildQueryString`:
`undefined`/`null` values are skipped; arrays append one pair per
non-nullish element in order; nested objects append one
JSON-stringified pair; other values append one stringified pair. -/
def entryPairs : String × JsVal → List (String × String)
  | (_, .undef) => []
  | (_, .null) => []
  | (k, .arr items) =>
      items.filterMap fun item =>
        if item.isNullish then none else some (k, jsString item)
  | (k, .obj o) => [(k, jsonStringify (.obj o))]
  | (k, v) => [(k, jsString v)]

/-- `URLSearchParams.toString` joins the encoded pairs with `&` and no
leading separator. -/
def joinPairs : List String → String
  | [] => ""
  | [x] => x
  | x :: xs => x ++ "&" ++ joinPairs xs

/-- `buildQueryString(query)` from `createFetcher.ts`, for an object
input (the source returns `""` for non-object input, which the
association-list model cannot represent). -/
def buildQueryString (query : List (String × JsVal)) : String :=
  joinPairs ((query.flatMap entryPairs).map fun p =>
    formEncode p.1 ++ "=" ++ formEncode p.2)

/-! ## Path Template Engine — `extractParamNames` / `replacePath` -/

/-- First character class of a parameter token: `[a-zA-Z_]`. -/
def isIdentStart (c : Char) : Bool :=
  ('a' ≤ c && c ≤ 'z') || ('A' ≤ c && c ≤ 'Z') || c = '_'

/-- Continuation character class of a parameter token: `[a-zA-Z0-9_]`. -/
def isIdentChar (c : Char) : Bool :=
  isIdentStart c || ('0' ≤ c && c ≤ '9')

/-- Greedily take the `[a-zA-Z0-9_]*` tail of a parameter token,
returning the taken characters and the rest of the input. -/
def takeIdentTail : List Char → List Char × List Char
  | [] => ([], [])
  | c :: cs =>
      if isIdentChar c then
        let p := takeIdentTail cs
        (c :: p.1, p.2)
      else ([], c :: cs)

theorem takeIdentTail_rest_length (cs : List Char) :
    (takeIdentTail cs).2.length ≤ cs.length := by
  induction cs with
  | nil => simp [takeIdentTail]
  | cons c cs ih =>
      simp only [takeIdentTail]
      split
      · simpa using Nat.le_succ_of_le ih
      · simp

/-- Left-to-right global matching of `/:([a-zA-Z_][a-zA-Z0-9_]*)/g`
over a character list: at each `:` followed by an identifier, the
identifier is collected and scanning resumes after it; otherwise
scanning advances one character.  The scan consumes at least one
character per step, so the `fuel` argument (initialized to the input
length) never runs out before the input does. -/
def extractNamesGo : Nat → List Char → List String
  | 0, _ => []
  | _ + 1, [] => []
  | _ + 1, [_] => []
  | fuel + 1, c :: d :: ds =>
      if c = ':' then
        if isIdentStart d then
          let p := takeIdentTail ds
          String.mk (d :: p.1) :: extractNamesGo fuel p.2
        else
          extractNamesGo fuel (d :: ds)
      else extractNamesGo fuel (d :: ds)

/-- `extractParamNames(path)`: the parameter names of a path template,
in order of appearance, duplicates kept. -/
def extractParamNames (path : String) : List String :=
  extractNamesGo path.data.length path.data

/-- JavaScript `String.prototype.replace(search, replacement)` with a
string pattern: replace the first occurrence only.  (The `$`-pattern
substitution JavaScript applies inside the replacement string is not
modelled; no verified property inspects a replacement value containing
`$`.) -/
def replaceFirst (s pat rep : String) : String :=
  match s.splitOn pat with
  | [] => s
  | [x] => x
  | x :: rest => x ++ rep ++ String.intercalate pat rest

/-! ## Fetch pipeline — `createFetcher.ts` -/

/-- The five HTTP methods recognized by the engine. -/
inductive Method where
  | GET | POST | PUT | PATCH | DELETE
deriving DecidableEq

/-- A thrown JavaScript value, as the fetch pipeline distinguishes
them: `apiError` carries the `status`/`statusText`/`message`/`data`
fields tested by `isAPIError`; `validationError` carries the
`type: "validation"` tag and `errors` payload tested by
`isValidationError`; `plainError` is any other `Error` instance
(a plain `new Error(message)`, a `DOMException`, a `TypeError`, ...),
identified only by its `message`. -/
inductive JsError where
  | apiError (status : Nat) (statusText message : String) (data : Option JsVal)
  | validationError (errors : String)
  | plainError (message : String)

/-- A Zod-style validator capability: `safeParse` returns either the
normalized value or a structured failure (the failure detail is kept
opaque). -/
structure Schema where
  safeParse : JsVal → Except String JsVal

/-- An `AbortSignal` cancellation handle, reduced to the one bit the
pipeline can observe. -/
structure AbortSignal where
  aborted : Bool

/-- The assembled low-level request description (`RequestInit`). -/
structure RequestInit where
  method : Method
  headers : List (String × String)
  signal : Option AbortSignal
  body : Option String

/-- The transport's response, at the boundary the pipeline consumes:
status information plus the decoded body.  `parseResponseData`
(content-type sniffing, JSON parse with text fallback) is abstracted
into the `data` field: the response collaborator is modelled as
delivering its decoded value directly. -/
structure JsResponse where
  ok : Bool
  status : Nat
  statusText : String
  data : JsVal

/-- The transport collaborator (`fetch`): resolves with a response or
rejects with a thrown value. -/
inductive TransportResult where
  | resolved (r : JsResponse)
  | rejected (e : JsError)

/-- A transport is invoked with the url and the request description. -/
def Transport := String → RequestInit → TransportResult

/-- `FetchConfig`: base address, default headers and the two optional
interceptors, each of which may itself throw. -/
structure FetchConfig where
  baseURL : String := ""
  headers : List (String × String) := []
  beforeRequest : Option (RequestInit → Except JsError RequestInit) := none
  afterResponse : Option (JsResponse → Except JsError JsResponse) := none

/-- `FetchOptions`: per-call options of the fetcher. -/
structure FetchOptions where
  method : Method := .GET
  body : Option JsVal := none
  params : Option (List (String × JsVal)) := none
  query : Option (List (String × JsVal)) := none
  signal : Option AbortSignal := none
  schema : Option Schema := none
  bodySchema : Option Schema := none

/-- Inner loop of `replacePath`: scan the extracted names in order;
a name whose key is absent from the params object
(`!(paramName in params)`) throws
`Error("Missing required path parameter: " + paramName)`; a present
name substitutes the first occurrence of `:name` with the stringified
property value. -/
def replaceLoop (ps : List (String × JsVal)) :
    List String → String → Except JsError String
  | [], acc => .ok acc
  | n :: ns, acc =>
      if (ps.map Prod.fst).contains n then
        replaceLoop ps ns
          (replaceFirst acc (":" ++ n) (jsString ((lookupKey ps n).getD .undef)))
      else
        .error (.plainError ("Missing required path parameter: " ++ n))

/-- `replacePath(path, params)`: absent params return the template
unchanged; otherwise every extracted name must be a key of the params
object, and each token is substituted in order. -/
def replacePath (path : String)
    (params : Option (List (String × JsVal))) : Except JsError String :=
  match params with
  | none => .ok path
  | some ps => replaceLoop ps (extractParamNames path) path

/-- The path-plus-query-string assembly at the head of the fetcher:
append the serialized query with `?` (or `&` when the substituted path
already contains `?`), skipping an empty serialization. -/
def appendQuery (fp : String) (query : Option (List (String × JsVal))) : String :=
  match query with
  | none => fp
  | some q =>
      let qs := buildQueryString q
      if qs = "" then fp
      else fp ++ (if fp.data.contains '?' then "&" else "?") ++ qs

/-- JavaScript object spread `{...base, ...extra}` on string-keyed
records: keys of `base` keep their position and are overwritten by
`extra`; new keys of `extra` are appended in order. -/
def objAssign (base extra : List (String × String)) : List (String × String) :=
  extra.foldl (fun acc kv => setKey acc kv.1 kv.2) base
where
  setKey : List (String × String) → String → String → List (String × String)
    | [], k, v => [(k, v)]
    | (k0, v0) :: rest, k, v =>
        if k0 = k then (k0, v) :: rest else (k0, v0) :: setKey rest k v

/-- Initial headers: configured defaults, spread together with a
`Content-Type: application/json` entry exactly when a body value is
present. -/
def buildHeaders (cfg : FetchConfig) (opts : FetchOptions) : List (String × String) :=
  objAssign cfg.headers
    (if opts.body.isSome then [("Content-Type", "application/json")] else [])

/-- The body step of the fetcher (lines 82–99 of `createFetcher.ts`):
for a present body on POST/PUT/PATCH, validate against `bodySchema`
when one is configured (a failure throws a `ValidationError` before
any network activity) and serialize the original body; otherwise the
request carries no body. -/
def bodyStep (opts : FetchOptions) : Except JsError (Option String) :=
  match opts.body with
  | some b =>
      if opts.method = .POST ∨ opts.method = .PUT ∨ opts.method = .PATCH then
        match opts.bodySchema with
        | some s =>
            match s.safeParse b with
            | .error err => .error (.validationError err)
            | .ok _ => .ok (some (jsonStringify b))
        | none => .ok (some (jsonStringify b))
      else .ok none
  | none => .ok none

/-- The catch clause of the fetcher: `APIError` and `ValidationError`
shapes are rethrown as-is; anything else is mapped to an `APIError`
with status `0`, status text `"Network Error"` and the underlying
message. -/
def mapCatch : JsError → JsError
  | .apiError st stt msg d => .apiError st stt msg d
  | .validationError errs => .validationError errs
  | .plainError msg => .apiError 0 "Network Error" msg none

/-- The outcome of one fetcher call: the settled result, plus the
transport invocation (url and request description) when one occurred. -/
structure FetchOutcome where
  result : Except JsError JsVal
  transportCall : Option (String × RequestInit)

/-- The `try` region of the fetcher (lines 106–159): invoke the
transport, run the response interceptor, reject non-success statuses
as `APIError`, decode, validate against the response schema
(returning the schema's normalized output), with every failure
filtered through the catch clause. -/
def runTry (cfg : FetchConfig) (transport : Transport) (url : String)
    (init : RequestInit) (schema : Option Schema) : FetchOutcome where
  transportCall := some (url, init)
  result :=
    match transport url init with
    | .rejected e => .error (mapCatch e)
    | .resolved r0 =>
        let stepped : Except JsError JsResponse :=
          match cfg.afterResponse with
          | some g => g r0
          | none => .ok r0
        match stepped with
        | .error e => .error (mapCatch e)
        | .ok r =>
            if !r.ok then
              .error (mapCatch (.apiError r.status r.statusText
                ("HTTP " ++ toString r.status ++ ": " ++ r.statusText)
                (some r.data)))
            else
              match schema with
              | some s =>
                  match s.safeParse r.data with
                  | .error err => .error (mapCatch (.validationError err))
                  | .ok normalized => .ok normalized
              | none => .ok r.data

/-- The fetcher returned by `createFetcher(config)`: path
substitution, query-string assembly, header and body assembly with
request-side validation, the `beforeRequest` interceptor (outside the
`try` region, so its failures propagate unmapped), then the `try`
region around the transport. -/
def fetcher (cfg : FetchConfig) (transport : Transport)
    (path : String) (opts : FetchOptions) : FetchOutcome :=
  match replacePath path opts.params with
  | .error e => ⟨.error e, none⟩
  | .ok fp =>
      let url := cfg.baseURL ++ appendQuery fp opts.query
      match bodyStep opts with
      | .error e => ⟨.error e, none⟩
      | .ok serializedBody =>
          let init : RequestInit :=
            { method := opts.method
              headers := buildHeaders cfg opts
              signal := opts.signal
              body := serializedBody }
          match cfg.beforeRequest with
          | some f =>
              match f init with
              | .error e => ⟨.error e, none⟩
              | .ok init2 => runTry cfg transport url init2 opts.schema
          | none => runTry cfg transport url init opts.schema

/-! ## Configuration Validator — `validateEndpoint` -/

/-- The runtime value of a schema-bearing field of a descriptor, as
`validateEndpoint` can distinguish it: present-but-`undefined`, an
object exposing a `parse` function (a Zod schema), or any other
value. -/
inductive SchemaField where
  | undef
  | zodLike (s : Schema)
  | nonZod

/-- An endpoint descriptor as the validator receives it (`any`):
each field is optional to model the `"field" in endpoint` tests.
`method` and `path` may hold arbitrary runtime values. -/
structure RawEndpoint where
  method : Option JsVal := none
  path : Option JsVal := none
  schema : Option SchemaField := none
  bodySchema : Option SchemaField := none
  querySchema : Option SchemaField := none

/-- The five recognized method strings, in source order. -/
def validMethods : List String := ["GET", "POST", "PUT", "PATCH", "DELETE"]

/-- `path.startsWith("/")`: the first character is a slash. -/
def startsWithSlash (s : String) : Bool :=
  match s.data with
  | c :: _ => c = '/'
  | [] => false

/-- `validateEndpoint(endpoint, path)` from the configuration
validator: checks `method` (presence, string, recognized verb), then
`path` (presence, string, non-empty, leading `/`), then that a
present, non-`undefined` `schema` is a Zod schema object.  The
`bodySchema` and `querySchema` fields are never inspected by this
function. -/
def validateEndpoint (e : RawEndpoint) (loc : String) : Except String Unit :=
  match e.method with
  | none =>
      .error ("Invalid endpoint configuration at \"" ++ loc ++
        "\": missing required field \"method\"")
  | some m =>
      match m with
      | .str ms =>
          if ¬ validMethods.contains ms then
            .error ("Invalid endpoint configuration at \"" ++ loc ++
              "\": \"method\" must be one of " ++
              String.intercalate ", " validMethods ++ " (got \"" ++ ms ++ "\")")
          else
            match e.path with
            | none =>
                .error ("Invalid endpoint configuration at \"" ++ loc ++
                  "\": missing required field \"path\"")
            | some p =>
                match p with
                | .str pstr =>
                    if pstr.length = 0 then
                      .error ("Invalid endpoint configuration at \"" ++ loc ++
                        "\": \"path\" cannot be empty")
                    else if ¬ startsWithSlash pstr then
                      .error ("Invalid endpoint configuration at \"" ++ loc ++
                        "\": \"path\" must start with \"/\" (got \"" ++ pstr ++ "\")")
                    else
                      match e.schema with
                      | some .nonZod =>
                          .error ("Invalid endpoint configuration at \"" ++ loc ++
                            "\": \"schema\" must be a Zod schema object")
                      | _ => .ok ()
                | _ =>
                    .error ("Invalid endpoint configuration at \"" ++ loc ++
                      "\": \"path\" must be a string")
      | _ =>
          .error ("Invalid endpoint configuration at \"" ++ loc ++
            "\": \"method\" must be a string")

/-! ## Hooks and automatic invalidation — `createHooks` /
`createUseMutationHook` -/

/-- Which kind of hook `createHooks` installs for an endpoint: GET
endpoints get a `useQuery` hook, every other method gets a
`useMutation` hook. -/
inductive HookKind where
  | queryHook
  | mutationHook
deriving DecidableEq

/-- The branch of `createHooks` choosing the hook for a method. -/
def hookKindFor (m : Method) : HookKind :=
  if m = .GET then .queryHook else .mutationHook

/-- The invalidation filters that the `onSuccess` handler of
`createUseMutationHook` passes to `queryClient.invalidateQueries`
after a successful mutation, in the branch order of the source: each
of POST, PUT/PATCH and DELETE invalidates with the single filter key
`[group]`. -/
def onSuccessInvalidation (m : Method) (group : String) : List CacheKey :=
  if m = .POST then [[KeyPart.str group]]
  else if m = .PUT ∨ m = .PATCH then [[KeyPart.str group]]
  else if m = .DELETE then [[KeyPart.str group]]
  else []

/-- The automatic invalidation a successful call of the generated
hook performs: `useQuery` hooks install no invalidation handler;
`useMutation` hooks install `onSuccessInvalidation`. -/
def autoInvalidation (m : Method) (group : String) : List CacheKey :=
  match hookKindFor m with
  | .queryHook => []
  | .mutationHook => onSuccessInvalidation m group

/-- The cache/store collaborator boundary:
`invalidateQueries {queryKey := t}` invalidates every cached entry
whose key has `t` as a structural prefix.  An entry is invalidated by
a list of filters when some filter is a prefix of its key. -/
def invalidatesEntry (targets : List CacheKey) (k : CacheKey) : Prop :=
  ∃ t ∈ targets, t <+: k

/-! ## Lemmas about the cache key factory -/

theorem sortKeys_eq_of_perm {l1 l2 : List String} (h : l1.Perm l2) :
    sortKeys l1 = sortKeys l2 := by
  unfold sortKeys
  exact List.eq_of_perm_of_sorted
    ((List.perm_insertionSort _ l1).trans (h.trans (List.perm_insertionSort _ l2).symm))
    (List.sorted_insertionSort _ l1)
    (List.sorted_insertionSort _ l2)

theorem lookupKey_eq_of_perm {l1 l2 : List (String × JsVal)} (h : l1.Perm l2) :
    (l1.map Prod.fst).Nodup → ∀ k, lookupKey l1 k = lookupKey l2 k := by
  induction h with
  | nil => exact fun _ _ => rfl
  | cons x h ih =>
      intro hnd k
      obtain ⟨a, b⟩ := x
      simp only [List.map_cons] at hnd
      simp only [lookupKey]
      split
      · rfl
      · exact ih hnd.of_cons k
  | swap x y t =>
      intro hnd k
      obtain ⟨a, b⟩ := x
      obtain ⟨c, d⟩ := y
      simp only [List.map_cons, List.nodup_cons, List.mem_cons, not_or] at hnd
      have hne : c ≠ a := hnd.1.1
      simp only [lookupKey]
      by_cases hc : c = k
      · subst hc
        rw [if_pos rfl, if_neg (fun hac => hne hac.symm), if_pos rfl]
      · by_cases ha : a = k
        · subst ha
          rw [if_neg hc, if_pos rfl, if_pos rfl]
        · rw [if_neg hc, if_neg ha, if_neg ha, if_neg hc]
  | trans h1 h2 ih1 ih2 =>
      intro hnd k
      rw [ih1 hnd k, ih2 (((h1.map Prod.fst).nodup_iff).mp hnd) k]

theorem sortedObj_eq_of_perm {p1 p2 : List (String × JsVal)} (h : p1.Perm p2)
    (hnd : (p1.map Prod.fst).Nodup) : sortedObj p1 = sortedObj p2 := by
  unfold sortedObj
  rw [sortKeys_eq_of_perm (h.map Prod.fst)]
  have hfun : ∀ k, (match lookupKey p1 k with
      | some v => if v.isUndef then none else some (k, v)
      | none => none) = (match lookupKey p2 k with
      | some v => if v.isUndef then none else some ((k : String), v)
      | none => none) := by
    intro k
    rw [lookupKey_eq_of_perm h hnd k]
  exact List.filterMap_congr fun k _ => hfun k

theorem lookupKey_mem : ∀ {l : List (String × JsVal)} {k : String} {v : JsVal},
    lookupKey l k = some v → (k, v) ∈ l := by
  intro l
  induction l with
  | nil => intro k v h; simp [lookupKey] at h
  | cons x rest ih =>
      intro k v h
      obtain ⟨a, b⟩ := x
      by_cases hak : a = k
      · subst hak
        simp only [lookupKey, if_pos] at h
        obtain rfl := Option.some.inj h
        exact List.mem_cons_self _ _
      · simp only [lookupKey, if_neg hak] at h
        exact List.mem_cons_of_mem _ (ih h)

/-- A filterMap whose hits keep the scanned key as first component
yields a key list that is a sublist of the scanned list. -/
theorem filterMap_keyed_sublist (f : String → Option (String × JsVal))
    (hf : ∀ k p, f k = some p → p.1 = k) (l : List String) :
    ((l.filterMap f).map Prod.fst).Sublist l := by
  induction l with
  | nil => simp
  | cons k t ih =>
      simp only [List.filterMap_cons]
      cases hfk : f k with
      | none => exact ih.cons k
      | some p =>
          simp only [List.map_cons, hf k p hfk]
          exact ih.cons₂ k

/-- The keys of the object built by the sort-and-copy loop form a
sublist of the sorted key list. -/
theorem sortedObj_keys_sublist (o : List (String × JsVal)) :
    ((sortedObj o).map Prod.fst).Sublist (sortKeys (o.map Prod.fst)) := by
  unfold sortedObj
  apply filterMap_keyed_sublist
  intro k p hp
  cases hl : lookupKey o k with
  | none => simp [hl] at hp
  | some v =>
      simp only [hl] at hp
      split at hp
      · simp at hp
      · obtain rfl := Option.some.inj hp
        rfl

theorem sortedObj_keys_sorted {o : List (String × JsVal)}
    (hnd : (o.map Prod.fst).Nodup) :
    List.Sorted (· < ·) ((sortedObj o).map Prod.fst) := by
  have hsorted : List.Sorted (· ≤ ·) (sortKeys (o.map Prod.fst)) :=
    List.sorted_insertionSort _ _
  have hnd' : (sortKeys (o.map Prod.fst)).Nodup :=
    ((List.perm_insertionSort _ _).nodup_iff).mpr hnd
  exact (hsorted.lt_of_le hnd').sublist (sortedObj_keys_sublist o)

/-- C1. Cache-key determinism: two parameter objects (and two query
objects) holding the same key-value pairs in any insertion order give
structurally equal keys; the key begins with `[group, endpoint]`; and
every appended object has its keys in strictly increasing
lexicographic order. -/
theorem createKey_deterministic_C1
    (g e : String) (p1 p2 q1 q2 : List (String × JsVal))
    (hpnd : (p1.map Prod.fst).Nodup) (hqnd : (q1.map Prod.fst).Nodup)
    (hp : p1.Perm p2) (hq : q1.Perm q2) :
    createKey g e (some p1) (some q1) = createKey g e (some p2) (some q2)
    ∧ (createKey g e (some p1) (some q1)).take 2 = [KeyPart.str g, KeyPart.str e]
    ∧ ∀ o, KeyPart.obj o ∈ createKey g e (some p1) (some q1) →
        List.Sorted (· < ·) (o.map Prod.fst) := by
  refine ⟨?_, ?_, ?_⟩
  · simp only [createKey, hp.length_eq, hq.length_eq,
      sortedObj_eq_of_perm hp hpnd, sortedObj_eq_of_perm hq hqnd]
  · simp only [createKey]
    split <;> split <;> rfl
  · intro o ho
    have hmem : ∀ x ∈ createKey g e (some p1) (some q1),
        x = KeyPart.str g ∨ x = KeyPart.str e ∨
        x = KeyPart.obj (sortedObj p1) ∨ x = KeyPart.obj (sortedObj q1) := by
      intro x hx
      simp only [createKey] at hx
      split at hx <;> split at hx <;>
        simp only [List.cons_append, List.nil_append, List.mem_cons,
          List.mem_singleton, List.not_mem_nil, or_false] at hx <;>
        tauto
    rcases hmem (KeyPart.obj o) ho with h | h | h | h
    · cases h
    · cases h
    · injection h with h'; subst h'; exact sortedObj_keys_sorted hpnd
    · injection h with h'; subst h'; exact sortedObj_keys_sorted hqnd

/-- C1 witness: two insertion orders of the same params and query
objects give the identical key. -/
theorem createKey_deterministic_C1_witness :
    createKey "users" "get"
        (some [("b", JsVal.num 2), ("a", JsVal.num 1)])
        (some [("y", JsVal.str "u"), ("x", JsVal.str "v")])
      = createKey "users" "get"
        (some [("a", JsVal.num 1), ("b", JsVal.num 2)])
        (some [("x", JsVal.str "v"), ("y", JsVal.str "u")]) :=
  (createKey_deterministic_C1 "users" "get" _ _ _ _
    (by simp) (by simp)
    (List.Perm.swap _ _ _) (List.Perm.swap _ _ _)).1

/-- C5 counterexample: a params object whose only value is
`undefined` does not yield `[group, endpoint]` — the length test runs
on the keys before undefined values are dropped, so an empty object
is appended as a third element. -/
theorem createKey_append_condition_C5_cex :
    createKey "users" "get" (some [("id", JsVal.undef)]) none
      = [KeyPart.str "users", KeyPart.str "get", KeyPart.obj []]
    ∧ createKey "users" "get" (some [("id", JsVal.undef)]) none
      ≠ [KeyPart.str "users", KeyPart.str "get"] := by
  constructor
  · rfl
  · intro hcontra
    have h3 : createKey "users" "get" (some [("id", JsVal.undef)]) none
        = [KeyPart.str "users", KeyPart.str "get", KeyPart.obj []] := rfl
    rw [hcontra] at h3
    exact absurd (congrArg List.length h3) (by simp)

/-- C5 amended: the key function appends a params (or query) object
exactly when the object is supplied and non-empty before dropping
undefined values; entries whose value is `undefined` are dropped from
the appended object, so an all-undefined object contributes an empty
third object rather than being omitted. -/
theorem createKey_append_condition_C5
    (g e : String) (p : List (String × JsVal))
    (hne : p ≠ []) (hall : ∀ kv ∈ p, kv.2 = JsVal.undef) :
    createKey g e (some p) none = [KeyPart.str g, KeyPart.str e, KeyPart.obj []]
    ∧ createKey g e none (some p) = [KeyPart.str g, KeyPart.str e, KeyPart.obj []]
    ∧ createKey g e none none = [KeyPart.str g, KeyPart.str e]
    ∧ createKey g e (some []) none = [KeyPart.str g, KeyPart.str e]
    ∧ ∀ p' : List (String × JsVal),
        p' ≠ [] → (createKey g e (some p') none).length = 3 := by
  have hpos : p.length > 0 := List.length_pos.mpr hne
  have hobj : sortedObj p = [] := by
    unfold sortedObj
    rw [List.filterMap_eq_nil_iff]
    intro k _
    cases hl : lookupKey p k with
    | none => rfl
    | some v =>
        have hv : v = JsVal.undef := hall (k, v) (lookupKey_mem hl)
        subst hv
        rfl
  refine ⟨?_, ?_, rfl, rfl, ?_⟩
  · simp [createKey, hpos, hobj]
  · simp [createKey, hpos, hobj]
  · intro p' hp'
    simp [createKey, List.length_pos.mpr hp']

/-- C5 witness: the amended statement at the all-undefined object
`{id: undefined}`. -/
theorem createKey_append_condition_C5_witness :
    createKey "posts" "list" (some [("id", JsVal.undef)]) none
      = [KeyPart.str "posts", KeyPart.str "list", KeyPart.obj []] :=
  (createKey_append_condition_C5 "posts" "list" [("id", JsVal.undef)]
    (by simp) (by simp)).1

/-- C7. Automatic invalidation: the hook generated for any non-GET
method invalidates, on success, exactly the cached entries whose key
extends `[group]` — which includes both `[group, endpoint]` list keys
and `[group, endpoint, params]` keys — while GET endpoints receive a
query hook that performs no automatic invalidation. -/
theorem autoInvalidation_C7 (m : Method) (g : String) (k : CacheKey)
    (hm : m ≠ Method.GET) :
    (invalidatesEntry (autoInvalidation m g) k ↔ [KeyPart.str g] <+: k)
    ∧ autoInvalidation Method.GET g = []
    ∧ ¬ invalidatesEntry (autoInvalidation Method.GET g) k := by
  refine ⟨?_, rfl, ?_⟩
  · have hinv : autoInvalidation m g = [[KeyPart.str g]] := by
      cases m with
      | GET => exact absurd rfl hm
      | POST => rfl
      | PUT => rfl
      | PATCH => rfl
      | DELETE => rfl
    rw [hinv]
    constructor
    · rintro ⟨t, ht, hpre⟩
      obtain rfl := List.mem_singleton.mp ht
      exact hpre
    · intro hpre
      exact ⟨_, List.mem_singleton_self _, hpre⟩
  · rintro ⟨t, ht, -⟩
    simp [autoInvalidation, hookKindFor] at ht

/-- C7 witness: a POST under group `users` invalidates both the list
key and a parameterized key of that group. -/
theorem autoInvalidation_C7_witness :
    invalidatesEntry (autoInvalidation Method.POST "users")
      [KeyPart.str "users", KeyPart.str "list"]
    ∧ invalidatesEntry (autoInvalidation Method.POST "users")
      [KeyPart.str "users", KeyPart.str "get",
        KeyPart.obj [("id", JsVal.str "123")]] :=
  ⟨(autoInvalidation_C7 Method.POST "users" _ (by decide)).1.mpr ⟨_, rfl⟩,
   (autoInvalidation_C7 Method.POST "users" _ (by decide)).1.mpr ⟨_, rfl⟩⟩

/-- C4. The validator accepts a GET endpoint carrying a request-body
schema: `validateEndpoint` never inspects the `bodySchema` field, so
no error naming the method and location is raised (the repository's
own test suite expects a throw here). -/
theorem validateEndpoint_accepts_bodySchema_on_GET_C4 :
    validateEndpoint
      { method := some (JsVal.str "GET")
        path := some (JsVal.str "/users")
        bodySchema := some (SchemaField.zodLike ⟨fun v => Except.ok v⟩) }
      "users.list" = Except.ok ()
    ∧ validateEndpoint
      { method := some (JsVal.str "DELETE")
        path := some (JsVal.str "/users/:id")
        bodySchema := some (SchemaField.zodLike ⟨fun v => Except.ok v⟩) }
      "users.remove" = Except.ok () :=
  ⟨rfl, rfl⟩

/-! ## Lemmas about the fetch pipeline -/

/-- Without a configured body schema the body step never fails. -/
theorem bodyStep_isOk_of_no_schema (opts : FetchOptions)
    (h : opts.bodySchema = none) : ∃ sb, bodyStep opts = .ok sb := by
  unfold bodyStep
  rw [h]
  split
  · split
    · exact ⟨_, rfl⟩
    · exact ⟨none, rfl⟩
  · exact ⟨none, rfl⟩

/-- C2. Request-side validation boundary: a POST/PUT/PATCH call whose
body fails the configured request-body schema settles with a
`ValidationError` and never invokes the transport; and when no
request-body schema is configured, no body validation runs — the call
always reaches the transport (given that path substitution and the
request interceptor do not themselves fail). -/
theorem fetcher_request_validation_C2
    (cfg : FetchConfig) (t : Transport) (path : String) (opts : FetchOptions)
    (s : Schema) (b : JsVal) (err : String) (fp : String)
    (hm : opts.method = .POST ∨ opts.method = .PUT ∨ opts.method = .PATCH)
    (hb : opts.body = some b) (hs : opts.bodySchema = some s)
    (hfail : s.safeParse b = .error err)
    (hfp : replacePath path opts.params = .ok fp) :
    fetcher cfg t path opts
      = ⟨.error (.validationError err), none⟩
    ∧ ∀ (opts₂ : FetchOptions) (fp₂ : String),
        opts₂.bodySchema = none → replacePath path opts₂.params = .ok fp₂ →
        cfg.beforeRequest = none →
        (fetcher cfg t path opts₂).transportCall.isSome = true := by
  constructor
  · have hbody : bodyStep opts = .error (.validationError err) := by
      simp only [bodyStep, hb, hs]
      rw [if_pos hm, hfail]
    simp only [fetcher, hfp, hbody]
  · intro opts₂ fp₂ h1 h2 h3
    obtain ⟨sb, hsb⟩ := bodyStep_isOk_of_no_schema opts₂ h1
    simp only [fetcher, h2, hsb, h3, runTry, Option.isSome_some]

/-- A Zod-style schema used as a concrete witness collaborator: the
object must carry a defined `name` field. -/
def nameSchema : Schema where
  safeParse v :=
    match v with
    | .obj fields =>
        match lookupKey fields "name" with
        | some w => if w.isUndef then .error "name is required" else .ok (.obj fields)
        | none => .error "name is required"
    | _ => .error "expected an object"

/-- A transport collaborator that always resolves successfully. -/
def okTransport : Transport := fun _ _ =>
  .resolved { ok := true, status := 200, statusText := "OK", data := .null }

/-- C2 witness: a POST of `{}` against the `name`-requiring schema
fails request-side without a transport call, and the same POST without
a schema reaches the transport. -/
theorem fetcher_request_validation_C2_witness :
    fetcher {} okTransport "/users"
      { method := .POST, body := some (.obj []), bodySchema := some nameSchema }
      = ⟨.error (.validationError "name is required"), none⟩
    ∧ (fetcher {} okTransport "/users"
        { method := .POST, body := some (.obj []) }).transportCall.isSome = true := by
  have h := fetcher_request_validation_C2 {} okTransport "/users"
    { method := .POST, body := some (.obj []), bodySchema := some nameSchema }
    nameSchema (.obj []) "name is required" "/users"
    (Or.inl rfl) rfl rfl rfl rfl
  exact ⟨h.1, h.2 { method := .POST, body := some (.obj []) } "/users" rfl rfl rfl⟩

/-- A model of the `fetch` collaborator's abort behavior: a call whose
request carries an already-aborted signal rejects with an
`AbortError`-style plain error without network activity; otherwise it
resolves. -/
def abortingTransport : Transport := fun _ init =>
  match init.signal with
  | some sg =>
      if sg.aborted then .rejected (.plainError "The operation was aborted.")
      else .resolved { ok := true, status := 200, statusText := "OK", data := .null }
  | none => .resolved { ok := true, status := 200, statusText := "OK", data := .null }

/-- C3 counterexample: with an already-cancelled handle the pipeline
still invokes the transport (there is no pre-transmit abort check),
and the abort rejection is mapped to exactly the generic
network-failure shape `APIError{status 0, statusText "Network
Error"}`, so the cancellation outcome is not distinct. -/
theorem fetcher_cancellation_C3_cex :
    (fetcher {} abortingTransport "/users"
      { method := .GET, signal := some ⟨true⟩ }).transportCall.isSome = true
    ∧ (fetcher {} abortingTransport "/users"
      { method := .GET, signal := some ⟨true⟩ }).result
        = .error (.apiError 0 "Network Error" "The operation was aborted." none) :=
  ⟨rfl, rfl⟩

/-- C3 amended: the cancellation handle is only forwarded to the
transport, which is invoked even when the handle is already
cancelled; a transport rejection with a plain error — the abort
rejection included — is caught and mapped to the same
`APIError{status 0, statusText "Network Error"}` as any network
failure, distinguishable only by its message. -/
theorem fetcher_cancellation_mapped_C3
    (cfg : FetchConfig) (t : Transport) (path : String) (opts : FetchOptions)
    (msg fp : String)
    (hfp : replacePath path opts.params = .ok fp)
    (hbs : opts.bodySchema = none)
    (hbr : cfg.beforeRequest = none)
    (ht : ∀ u i, t u i = .rejected (.plainError msg)) :
    ∃ u i, (fetcher cfg t path opts).transportCall = some (u, i)
      ∧ i.signal = opts.signal
      ∧ (fetcher cfg t path opts).result
          = .error (.apiError 0 "Network Error" msg none) := by
  obtain ⟨sb, hsb⟩ := bodyStep_isOk_of_no_schema opts hbs
  simp only [fetcher, hfp, hsb, hbr, runTry, ht]
  exact ⟨_, _, rfl, rfl, rfl⟩

/-- C3 witness: the amended statement at an aborted GET call against
the abort-modelling transport. -/
theorem fetcher_cancellation_mapped_C3_witness :
    ∃ u i,
      (fetcher {} (fun _ _ => .rejected (.plainError "The operation was aborted."))
        "/users" { method := .GET, signal := some ⟨true⟩ }).transportCall = some (u, i)
      ∧ i.signal = some ⟨true⟩
      ∧ (fetcher {} (fun _ _ => .rejected (.plainError "The operation was aborted."))
          "/users" { method := .GET, signal := some ⟨true⟩ }).result
          = .error (.apiError 0 "Network Error" "The operation was aborted." none) :=
  fetcher_cancellation_mapped_C3 {} _ "/users"
    { method := .GET, signal := some (AbortSignal.mk true) }
    "The operation was aborted." "/users" rfl rfl rfl (fun _ _ => rfl)

/-- The substitution loop fails at the first extracted name missing
from the supplied params, naming it, whatever has been substituted
into the accumulator so far. -/
theorem replaceLoop_first_missing (ps : List (String × JsVal)) :
    ∀ (ns : List String) (acc : String) {n : String},
      ns.find? (fun m => !((ps.map Prod.fst).contains m)) = some n →
      replaceLoop ps ns acc
        = .error (.plainError ("Missing required path parameter: " ++ n)) := by
  intro ns
  induction ns with
  | nil => intro acc n h; simp at h
  | cons m ms ih =>
      intro acc n h
      cases hc : (ps.map Prod.fst).contains m with
      | true =>
          rw [List.find?_cons_of_neg _ (by rw [hc]; decide)] at h
          simp only [replaceLoop]
          rw [if_pos hc]
          exact ih _ h
      | false =>
          rw [List.find?_cons_of_pos _ (by rw [hc]; decide)] at h
          obtain rfl := Option.some.inj h
          simp only [replaceLoop]
          rw [if_neg (by intro hcontra; rw [hc] at hcontra; exact Bool.false_ne_true hcontra)]

/-- C6. Missing-parameter boundary: when a supplied params object
lacks a key for one of the template's extracted parameter names,
substitution fails with an error naming the (first) missing parameter
and produces no partially substituted path, and a fetcher call with
those params never invokes the transport. -/
theorem replacePath_missing_param_C6
    (path : String) (ps : List (String × JsVal)) (n : String)
    (hfind : (extractParamNames path).find?
        (fun m => !((ps.map Prod.fst).contains m)) = some n) :
    replacePath path (some ps)
      = .error (.plainError ("Missing required path parameter: " ++ n))
    ∧ ∀ (cfg : FetchConfig) (t : Transport) (opts : FetchOptions),
        opts.params = some ps →
        (fetcher cfg t path opts).transportCall = none := by
  have h1 : replacePath path (some ps)
      = .error (.plainError ("Missing required path parameter: " ++ n)) :=
    replaceLoop_first_missing ps (extractParamNames path) path hfind
  refine ⟨h1, ?_⟩
  intro cfg t opts hps
  simp only [fetcher, hps, h1]

/-- C6 witness: `substitute("/users/:id", {})` fails naming `id`, and
the corresponding call performs no transport invocation. -/
theorem replacePath_missing_param_C6_witness :
    replacePath "/users/:id" (some [])
      = .error (.plainError "Missing required path parameter: id")
    ∧ (fetcher {} okTransport "/users/:id"
        { method := .GET, params := some [] }).transportCall = none := by
  have h := replacePath_missing_param_C6 "/users/:id" [] "id" rfl
  exact ⟨h.1, h.2 {} okTransport { method := .GET, params := some [] } rfl⟩

/-- C9. Implicit passthrough of an absent params argument: with no
params object at all, substitution returns the template unchanged —
even one containing parameter tokens — and the request URL is the
base address concatenated with the unsubstituted template. -/
theorem replacePath_absent_params_C9 (path baseURL : String) (t : Transport) :
    replacePath path none = .ok path
    ∧ (fetcher { baseURL := baseURL } t path { method := .GET }).transportCall
        = some (baseURL ++ path,
            { method := .GET, headers := [], signal := none, body := none }) :=
  ⟨rfl, rfl⟩

/-- C10. A failing `beforeRequest` interceptor propagates its error
as-is — it is not filtered through the catch clause that maps plain
errors to `APIError{status 0, statusText "Network Error"}` — and the
transport is never invoked for that call. -/
theorem fetcher_beforeRequest_error_C10
    (cfg : FetchConfig) (t : Transport) (path : String) (opts : FetchOptions)
    (f : RequestInit → Except JsError RequestInit) (e : JsError) (fp : String)
    (hbr : cfg.beforeRequest = some f)
    (hf : ∀ i, f i = .error e)
    (hfp : replacePath path opts.params = .ok fp)
    (hbs : opts.bodySchema = none) :
    fetcher cfg t path opts = ⟨.error e, none⟩ := by
  obtain ⟨sb, hsb⟩ := bodyStep_isOk_of_no_schema opts hbs
  simp only [fetcher, hfp, hsb, hbr, hf]

/-- C10 witness: an interceptor throwing a plain error reaches the
caller as that plain error (not as the status-0 `APIError` the catch
clause would produce), with no transport call. -/
theorem fetcher_beforeRequest_error_C10_witness :
    fetcher { beforeRequest := some (fun _ => .error (.plainError "intercept failed")) }
      okTransport "/posts" { method := .GET }
      = ⟨.error (.plainError "intercept failed"), none⟩
    ∧ JsError.plainError "intercept failed"
        ≠ JsError.apiError 0 "Network Error" "intercept failed" none :=
  ⟨fetcher_beforeRequest_error_C10
      { beforeRequest := some (fun _ => .error (.plainError "intercept failed")) }
      okTransport "/posts" { method := .GET } _
      (.plainError "intercept failed") "/posts" rfl (fun _ => rfl) rfl rfl,
   fun h => JsError.noConfusion h⟩

/-! ## Lemmas about the query serializer -/

theorem foldl_append_data (l : List String) (a : String) :
    (l.foldl (· ++ ·) a).data = a.data ++ l.flatMap String.data := by
  induction l generalizing a with
  | nil => simp
  | cons s ss ih =>
      simp only [List.foldl_cons, List.flatMap_cons, ih, String.data_append,
        List.append_assoc]

/-- The form-urlencoding of one character is empty or starts with a
character other than `&`. -/
theorem formEncodeChar_cases (c : Char) :
    (formEncodeChar c).data = []
    ∨ ∃ d ds, (formEncodeChar c).data = d :: ds ∧ d ≠ '&' := by
  unfold formEncodeChar
  split
  · rename_i hsafe
    right
    refine ⟨c, [], rfl, ?_⟩
    intro hcontra
    subst hcontra
    exact absurd hsafe (by decide)
  · split
    · right
      exact ⟨'+', [], rfl, by decide⟩
    · cases hbs : ((String.singleton c).toUTF8.toList) with
      | nil =>
          left
          simp only [hbs, List.map_nil]
          rfl
      | cons b bs =>
          right
          refine ⟨'%', (hexByte b).data ++ ((bs.map fun b => "%" ++ hexByte b).flatMap String.data), ?_, by decide⟩
          simp only [hbs, List.map_cons, String.join, foldl_append_data,
            List.flatMap_cons, String.data_append]
          rfl

theorem formEncodeList_append_head (cs : List Char) (t : String)
    (ht : t.data.head? ≠ some '&') :
    ((formEncodeList cs) ++ t).data.head? ≠ some '&' := by
  induction cs with
  | nil =>
      have h0 : ((formEncodeList []) ++ t).data = t.data := by
        rw [String.data_append]
        rfl
      rw [h0]
      exact ht
  | cons c cs ih =>
      rw [formEncodeList, String.append_assoc]
      rcases formEncodeChar_cases c with h0 | ⟨d, ds, hd, hne⟩
      · have heq : (formEncodeChar c ++ (formEncodeList cs ++ t)).data
            = ((formEncodeList cs) ++ t).data := by
          rw [String.data_append, h0, List.nil_append]
        rw [heq]
        exact ih
      · have heq : (formEncodeChar c ++ (formEncodeList cs ++ t)).data
            = d :: (ds ++ ((formEncodeList cs) ++ t).data) := by
          rw [String.data_append, hd, List.cons_append]
        rw [heq]
        simp only [List.head?_cons, ne_eq, Option.some.injEq]
        exact hne

/-- An encoded `key=value` component is non-empty and does not start
with the separator. -/
theorem encodedPair_facts (k v : String) :
    (formEncode k ++ "=" ++ formEncode v).data ≠ []
    ∧ (formEncode k ++ "=" ++ formEncode v).data.head? ≠ some '&' := by
  constructor
  · intro hcontra
    have hlen := congrArg List.length hcontra
    rw [String.data_append, String.data_append,
      (rfl : ("=" : String).data = ['='])] at hlen
    simp only [List.length_append, List.length_cons, List.length_nil] at hlen
    omega
  · rw [String.append_assoc]
    apply formEncodeList_append_head
    rw [String.data_append]
    have h1 : ("=" : String).data = ['='] := rfl
    rw [h1, List.cons_append]
    simp only [List.head?_cons, ne_eq, Option.some.injEq]
    decide

/-- The joined query string of encoded components never starts with
the separator. -/
theorem joinEnc_head (ps : List (String × String)) :
    (joinPairs (ps.map fun p => formEncode p.1 ++ "=" ++ formEncode p.2)).data.head?
      ≠ some '&' := by
  cases ps with
  | nil => exact fun h => Option.noConfusion h
  | cons p ps' =>
      cases ps' with
      | nil =>
          simp only [List.map_cons, List.map_nil, joinPairs]
          exact (encodedPair_facts p.1 p.2).2
      | cons r rs =>
          simp only [List.map_cons, joinPairs]
          obtain ⟨hne, hhead⟩ := encodedPair_facts p.1 p.2
          cases hx : (formEncode p.1 ++ "=" ++ formEncode p.2).data with
          | nil => exact absurd hx hne
          | cons d ds =>
              rw [hx] at hhead
              simp only [List.head?_cons, ne_eq, Option.some.injEq] at hhead
              rw [String.data_append, String.data_append, hx]
              simp only [List.cons_append, List.head?_cons, ne_eq, Option.some.injEq]
              exact hhead

/-- The pairs an array entry contributes: one per non-nullish element,
in element order. -/
theorem entryPairs_arr (k : String) (items : List JsVal) :
    entryPairs (k, .arr items)
      = (items.filter fun it => !it.isNullish).map fun it => (k, jsString it) := by
  simp only [entryPairs]
  induction items with
  | nil => rfl
  | cons it its ih =>
      simp only [List.filterMap_cons, List.filter_cons]
      cases hit : it.isNullish with
      | true => simpa [hit] using ih
      | false => simpa [hit] using ih

/-- C8 counterexample: an array containing `null` does not emit one
pair per element — `{tags: ["a", null]}` serializes to a single
`tags=a` pair (one `=` sign) although the array has two elements. -/
theorem buildQueryString_C8_cex :
    buildQueryString [("tags", JsVal.arr [JsVal.str "a", JsVal.null])] = "tags=a"
    ∧ (buildQueryString [("tags", JsVal.arr [JsVal.str "a", JsVal.null])]).data.count '=' = 1
    ∧ [JsVal.str "a", JsVal.null].length = 2
    ∧ (1 : Nat) ≠ 2 :=
  ⟨rfl, rfl, rfl, by decide⟩

/-- C8 amended: nullish entries are skipped wherever they occur;
an array emits one pair per non-nullish element, preserving element
order (`{tags:["a","b"]}` gives `tags=a&tags=b`); empty or all-skipped
input yields the empty string; and the result never starts with the
`&` separator. -/
theorem buildQueryString_rules_C8
    (k : String) (v : JsVal) (items : List JsVal)
    (pre post q : List (String × JsVal))
    (hskip : v.isNullish = true)
    (hnil : q.flatMap entryPairs = []) :
    buildQueryString (pre ++ (k, v) :: post) = buildQueryString (pre ++ post)
    ∧ entryPairs (k, JsVal.arr items)
        = (items.filter fun it => !it.isNullish).map (fun it => (k, jsString it))
    ∧ buildQueryString [("tags", JsVal.arr [JsVal.str "a", JsVal.str "b"])]
        = "tags=a&tags=b"
    ∧ buildQueryString [] = ""
    ∧ buildQueryString q = ""
    ∧ ∀ q' : List (String × JsVal), (buildQueryString q').data.head? ≠ some '&' := by
  have hep : entryPairs (k, v) = [] := by
    cases v with
    | undef => rfl
    | null => rfl
    | str s => exact Bool.noConfusion hskip
    | num n => exact Bool.noConfusion hskip
    | bool b => exact Bool.noConfusion hskip
    | arr xs => exact Bool.noConfusion hskip
    | obj fs => exact Bool.noConfusion hskip
  refine ⟨?_, entryPairs_arr k items, rfl, rfl, ?_, ?_⟩
  · unfold buildQueryString
    rw [List.flatMap_append, List.flatMap_cons, hep, List.nil_append,
      ← List.flatMap_append]
  · unfold buildQueryString
    rw [hnil]
    rfl
  · intro q'
    unfold buildQueryString
    exact joinEnc_head _

/-- C8 witness: the amended statement at `{p:"1"}, {x:null}, {r:"2"}`
with the all-skipped object `{dead: undefined}`. -/
theorem buildQueryString_rules_C8_witness :
    buildQueryString [("p", JsVal.str "1"), ("x", JsVal.null), ("r", JsVal.str "2")]
      = buildQueryString [("p", JsVal.str "1"), ("r", JsVal.str "2")]
    ∧ buildQueryString [("dead", JsVal.undef)] = "" :=
  have h := buildQueryString_rules_C8 "x" JsVal.null [] [("p", JsVal.str "1")]
    [("r", JsVal.str "2")] [("dead", JsVal.undef)] rfl rfl
  ⟨h.1, h.2.2.2.2.1⟩

end TanstackApi
